import Mathlib

set_option maxRecDepth 40000

/-!
Shallow embedding of the FVTT Mumble Link helper (`helper.py`) and proofs
about its record encoder, update sink, connection handler and startup path.

Bytes are modelled as `Nat` values below 256, byte buffers as `List Nat`,
Python strings as lists of Unicode code points (`List Nat`), JSON numbers
as rationals, and Python exceptions as an explicit error type threaded
through `Except`.
-/

/-- Python exceptions that the helper can raise, as an explicit error type. -/
inductive PyErr where
  | nameError
  | typeError
  | indexError
  | structError
  | valueError
  | overflowError
deriving DecidableEq

/-- A JSON value appearing as a vector element: either a number (modelled as a
rational) or a non-numeric value, on which `struct.pack` raises. -/
inductive Val where
  | num (q : ℚ)
  | nonNum
deriving DecidableEq

/-- The decoded JSON object passed to `update_mumble_link`: each key of the
Mumble Link structure is either present or absent (`data.get` defaults apply).
Strings are lists of Unicode code points; `context` is a list of Python ints. -/
structure Message where
  uiVersion : Option Nat
  fAvatarPosition : Option (List Val)
  fAvatarFront : Option (List Val)
  fAvatarTop : Option (List Val)
  name : Option (List Nat)
  fCameraPosition : Option (List Val)
  fCameraFront : Option (List Val)
  fCameraTop : Option (List Val)
  identity : Option (List Nat)
  context : Option (List Int)
  description : Option (List Nat)

/-- Python bytearray slice assignment `buf[off:off+len(bs)] = bs`: replaces the
bytes of the (clamped) slice by `bs`; when the slice reaches past the end of
the buffer the buffer grows. -/
def writeAt (buf : List Nat) (off : Nat) (bs : List Nat) : List Nat :=
  buf.take off ++ bs ++ buf.drop (off + bs.length)

/-- Read `n` bytes at offset `off` (as `struct.unpack_from` / slicing does). -/
def readAt (buf : List Nat) (off n : Nat) : List Nat :=
  (buf.drop off).take n

/-- Little-endian bytes of a 32-bit value. -/
def bytesOfBits (bits : Nat) : List Nat :=
  [bits % 256, bits / 256 % 256, bits / 65536 % 256, bits / 16777216 % 256]

/-- `struct.pack('<I', v)`: little-endian unsigned 32-bit; raises
`struct.error` when the argument is out of range. -/
def packU32 (v : Nat) : Except PyErr (List Nat) :=
  if v < 4294967296 then .ok (bytesOfBits v) else .error .structError

/-- `struct.unpack('<I', bs)` on four little-endian bytes. -/
def unpackU32 (bs : List Nat) : Nat :=
  match bs with
  | [b0, b1, b2, b3] => b0 + 256 * b1 + 65536 * b2 + 16777216 * b3
  | _ => 0

/-- Round a rational to the nearest integer, ties to even (IEEE-754 default
rounding, used by the C `double` → `float` conversion in `struct.pack('<f')`). -/
def rne (q : ℚ) : ℤ :=
  if q - q.floor < 1 / 2 then q.floor
  else if 1 / 2 < q - q.floor then q.floor + 1
  else if q.floor % 2 = 0 then q.floor else q.floor + 1

/-- Decide `2 ^ e ≤ x` for an integer exponent and a positive rational. -/
def twoPowLE (e : ℤ) (x : ℚ) : Bool :=
  if 0 ≤ e then decide ((x.den : ℤ) * 2 ^ e.toNat ≤ x.num)
  else decide ((x.den : ℤ) ≤ x.num * 2 ^ (-e).toNat)

/-- Multiply a rational by an integer power of two. -/
def qMulPow2 (x : ℚ) (k : ℤ) : ℚ :=
  if 0 ≤ k then x * 2 ^ k.toNat else x / 2 ^ (-k).toNat

/-- Fuel-driven base-2 logarithm on naturals (structural recursion, so it
reduces definitionally; with fuel ≥ n it equals the floor of log2). -/
def log2fuel (fuel n : Nat) : Nat :=
  match fuel with
  | 0 => 0
  | fuel + 1 => if 2 ≤ n then log2fuel fuel (n / 2) + 1 else 0

/-- Floor of the base-2 logarithm of a natural number. -/
def natLog2 (n : Nat) : Nat := log2fuel n n

/-- Floor of the base-2 logarithm of a positive rational: the `e` with
`2 ^ e ≤ x < 2 ^ (e + 1)`. -/
def floorLog2 (x : ℚ) : ℤ :=
  if twoPowLE ((natLog2 x.num.toNat : ℤ) - (natLog2 x.den : ℤ) + 1) x then
    (natLog2 x.num.toNat : ℤ) - (natLog2 x.den : ℤ) + 1
  else if twoPowLE ((natLog2 x.num.toNat : ℤ) - (natLog2 x.den : ℤ)) x then
    (natLog2 x.num.toNat : ℤ) - (natLog2 x.den : ℤ)
  else
    (natLog2 x.num.toNat : ℤ) - (natLog2 x.den : ℤ) - 1

/-- Significand of `|q|` scaled into `[2 ^ 23, 2 ^ 24]`, rounded to nearest even. -/
def f32m0 (q : ℚ) : Nat :=
  (rne (qMulPow2 |q| (23 - floorLog2 |q|))).toNat

/-- Binary32 exponent of `q` after rounding (may push into the next binade). -/
def f32exp (q : ℚ) : ℤ :=
  if f32m0 q = 2 ^ 24 then floorLog2 |q| + 1 else floorLog2 |q|

/-- Binary32 significand of `q` after rounding. -/
def f32mant (q : ℚ) : Nat :=
  if f32m0 q = 2 ^ 24 then 2 ^ 23 else f32m0 q

/-- `struct.pack('<f', q)`: IEEE-754 binary32 little-endian bytes of a finite
value, round to nearest even; raises `OverflowError` when the rounded value
does not fit in a binary32 (as CPython's pack does for finite doubles). -/
def packF32val (q : ℚ) : Except PyErr (List Nat) :=
  if q = 0 then .ok (bytesOfBits 0)
  else if floorLog2 |q| < -126 then
    .ok (bytesOfBits ((if q < 0 then 1 else 0) * 2 ^ 31 +
      (rne (qMulPow2 |q| 149)).toNat))
  else if 127 < f32exp q then .error .overflowError
  else
    .ok (bytesOfBits ((if q < 0 then 1 else 0) * 2 ^ 31 +
      (f32exp q + 127).toNat * 2 ^ 23 + (f32mant q - 2 ^ 23)))

/-- Packing a vector element: numbers go through binary32 conversion, any
non-numeric JSON value makes `struct.pack` raise. -/
def packF32 : Val → Except PyErr (List Nat)
  | .num q => packF32val q
  | .nonNum => .error .structError

/-- `struct.pack_into('<f', buf, off, l[i])` evaluated at loop index `i`:
Python first indexes the list (raising `IndexError` past its end), then packs. -/
def packF32at (l : List Val) (i : Nat) : Except PyErr (List Nat) :=
  match l.get? i with
  | none => .error .indexError
  | some v => packF32 v

/-- The three iterations of `for i in range(3): struct.pack_into('<f', ...)`. -/
def packVec3 (l : List Val) : Except PyErr (List Nat) := do
  let b0 ← packF32at l 0
  let b1 ← packF32at l 1
  let b2 ← packF32at l 2
  pure (b0 ++ b1 ++ b2)

/-- UTF-16LE bytes of one Unicode code point (surrogate pair above U+FFFF). -/
def utf16leChar (c : Nat) : List Nat :=
  if c < 65536 then [c % 256, c / 256]
  else
    [(55296 + (c - 65536) / 1024) % 256, (55296 + (c - 65536) / 1024) / 256,
     (56320 + (c - 65536) % 1024) % 256, (56320 + (c - 65536) % 1024) / 256]

/-- `s.encode('utf-16le')` over the code points of a text string. -/
def encodeUtf16le (s : List Nat) : List Nat :=
  s.flatMap utf16leChar

/-- Code points of a Lean string literal (to write concrete Python strings). -/
def strCodes (s : String) : List Nat :=
  s.data.map Char.toNat

/-- Default for the `name` key: `'Foundry VTT User'`. -/
def defaultName : List Nat := strCodes "Foundry VTT User"

/-- Default for the `identity` key: the two-character string of code points
123 and 125 (open and close curly brace). -/
def defaultIdentity : List Nat := [123, 125]

/-- Default for the `description` key: `'Foundry VTT'`. -/
def defaultDescription : List Nat := strCodes "Foundry VTT"

/-- `data.get('name', 'Foundry VTT User')[:255].encode('utf-16le')[:510]`. -/
def nameWideOf (m : Message) : List Nat :=
  (encodeUtf16le ((m.name.getD defaultName).take 255)).take 510

/-- `data.get('identity', '..')[:255].encode('utf-16le')[:510]`. -/
def identityWideOf (m : Message) : List Nat :=
  (encodeUtf16le ((m.identity.getD defaultIdentity).take 255)).take 510

/-- `data.get('description', 'Foundry VTT')[:2047].encode('utf-16le')[:4094]`. -/
def descWideOf (m : Message) : List Nat :=
  (encodeUtf16le ((m.description.getD defaultDescription).take 2047)).take 4094

/-- Avatar position with its `data.get` default `[0, 0, 0]`. -/
def avatarPos (m : Message) : List Val :=
  m.fAvatarPosition.getD [Val.num 0, Val.num 0, Val.num 0]

/-- Avatar front with its `data.get` default `[0, 0, 1]`. -/
def avatarFront (m : Message) : List Val :=
  m.fAvatarFront.getD [Val.num 0, Val.num 0, Val.num 1]

/-- Avatar top with its `data.get` default `[0, 1, 0]`. -/
def avatarTop (m : Message) : List Val :=
  m.fAvatarTop.getD [Val.num 0, Val.num 1, Val.num 0]

/-- Camera position defaulting to the avatar position list (`data.get(_, pos)`). -/
def cameraPos (m : Message) : List Val :=
  m.fCameraPosition.getD (avatarPos m)

/-- Camera front defaulting to the avatar front list. -/
def cameraFront (m : Message) : List Val :=
  m.fCameraFront.getD (avatarFront m)

/-- Camera top defaulting to the avatar top list. -/
def cameraTop (m : Message) : List Val :=
  m.fCameraTop.getD (avatarTop m)

/-- `data.get('context', [])`. -/
def ctxOf (m : Message) : List Int :=
  m.context.getD []

/-- `bytes(list)`: validates each element is in `[0, 256)` left to right,
raising `ValueError` otherwise. -/
def pyBytes (l : List Int) : Except PyErr (List Nat) :=
  match l with
  | [] => .ok []
  | c :: rest =>
    if 0 ≤ c ∧ c < 256 then do
      let r ← pyBytes rest
      pure (c.toNat :: r)
    else .error .valueError

/-- Lines 178-181: `if context:` guards the `bytes(context[:256])` write at
offset 1108; an empty context list writes nothing. -/
def writeContext (buf : List Nat) (ctx : List Int) : Except PyErr (List Nat) :=
  if ctx.isEmpty then .ok buf
  else do
    let cb ← pyBytes (ctx.take 256)
    pure (writeAt buf 1108 cb)

/-- The pure buffer assembly of `update_mumble_link`: the pre-zeroed 2048-byte
`bytearray` with version, tick, avatar vectors, name, camera vectors, identity
and context-length spliced in at their fixed offsets (lines 111-175). -/
def assembleBase (vb tb pb fb tpb nw cpb cfb ctb iw clb : List Nat) : List Nat :=
  writeAt (writeAt (writeAt (writeAt (writeAt (writeAt (writeAt (writeAt (writeAt
    (writeAt (writeAt (List.replicate 2048 0) 0 vb) 4 tb) 8 pb) 20 fb) 32 tpb)
    44 nw) 556 cpb) 568 cfb) 580 ctb) 592 iw) 1104 clb

/-- Lines 110-186 of `update_mumble_link`: build the binary record in a local
buffer.  The tick (offset 4) is read back from the local buffer just after the
version write — the buffer was freshly zeroed, so this does *not* see the
previous record.  Field packing can raise; the error propagates to the
enclosing `try`. -/
def encodeRecord (m : Message) : Except PyErr (List Nat) :=
  packU32 (m.uiVersion.getD 4) >>= fun vb =>
  packU32 (unpackU32 (readAt (writeAt (List.replicate 2048 0) 0 vb) 4 4) + 1) >>= fun tb =>
  packVec3 (avatarPos m) >>= fun pb =>
  packVec3 (avatarFront m) >>= fun fb =>
  packVec3 (avatarTop m) >>= fun tpb =>
  packVec3 (cameraPos m) >>= fun cpb =>
  packVec3 (cameraFront m) >>= fun cfb =>
  packVec3 (cameraTop m) >>= fun ctb =>
  packU32 (min (ctxOf m).length 256) >>= fun clb =>
  writeContext
    (assembleBase vb tb pb fb tpb (nameWideOf m) cpb cfb ctb (identityWideOf m) clb)
    (ctxOf m) >>= fun buf12 =>
  Except.ok (writeAt buf12 1364 (descWideOf m))

/-- The record produced for a message, or `[]` when encoding raises. -/
def getRec (m : Message) : List Nat :=
  match encodeRecord m with
  | .ok r => r
  | .error _ => []

/-- `mmap.write` at position 0 on a fixed-size mapping: raises `ValueError`
when the data does not fit, otherwise overwrites the leading bytes. -/
def mmapWrite (region rec : List Nat) : Except PyErr (List Nat) :=
  if rec.length ≤ region.length then .ok (rec ++ region.drop rec.length)
  else .error .valueError

/-- `update_mumble_link` (lines 87-197): no-op without an opened region;
otherwise encode into a local buffer and write it out, catching and logging
every exception (the region is untouched when anything raises). -/
def update_mumble_link (mem : Option (List Nat)) (data : Message) : Option (List Nat) :=
  match mem with
  | none => none
  | some region =>
    match encodeRecord data with
    | .error _ => some region
    | .ok rec =>
      match mmapWrite region rec with
      | .error _ => some region
      | .ok r2 => some r2

/-- The 32-bit tick stored at offset 4 of the (optional) shared region. -/
def tickOf (mem : Option (List Nat)) : Nat :=
  match mem with
  | some region => unpackU32 (readAt region 4 4)
  | none => 0

/-- `_get_link_name` (lines 28-39).  The module never imports `os`, so the
Linux and Darwin branches raise `NameError` when they evaluate `os.getuid()`;
the unsupported branch logs an error and returns `None`. -/
def get_link_name (system : String) (uid : Nat) : Except PyErr (Option String) :=
  if system = "Windows" then .ok (some "MumbleLink")
  else if system = "Linux" then .error .nameError
  else if system = "Darwin" then .error .nameError
  else .ok none

/-- `initialize_mumble_link` (lines 41-85), as (success, warned-not-found).
On Windows a missing mapping logs a warning and returns `False`.  On any other
system a `None` link name makes `Path(None)` raise `TypeError`, which the
enclosing `except` turns into a `False` return (logged as error, not warning);
with a real path, a missing file logs the warning and returns `False`. -/
def init_mumble_link (system : String) (linkName : Option String)
    (resourceExists : Bool) : Bool × Bool :=
  if system = "Windows" then
    (if resourceExists then (true, false) else (false, true))
  else
    match linkName with
    | none => (false, false)
    | some _ => (if resourceExists then (true, false) else (false, true))

/-- Observable outcome of running `main` up to the point where the WebSocket
server either binds or the process ends. -/
structure RunResult where
  loggedUnsupported : Bool
  warnedNotFound : Bool
  listenerBound : Bool
  terminated : Bool
  exitCode : Nat
deriving DecidableEq

/-- `main` + `start_server` (lines 221-255): constructing the helper runs
`_get_link_name`; an exception there is unhandled (Python exits with code 1).
Otherwise `start_server` first initializes the link; on failure it logs and
returns, so `asyncio.run` finishes and the process exits with code 0 without
ever calling `websockets.serve`.  On success the server binds and runs. -/
def runStartup (system : String) (uid : Nat) (resourceExists : Bool) : RunResult :=
  match get_link_name system uid with
  | .error _ => ⟨false, false, false, true, 1⟩
  | .ok linkName =>
    match init_mumble_link system linkName resourceExists with
    | (true, warned) => ⟨linkName.isNone, warned, true, false, 0⟩
    | (false, warned) => ⟨linkName.isNone, warned, false, true, 0⟩

/-- One inbound WebSocket frame, after `json.loads` has either failed
(structurally invalid payload) or produced a message object. -/
inductive Inbound where
  | malformed (raw : String)
  | parsed (data : Message)

/-- `handle_client`'s message loop (lines 204-214): every per-message
exception is caught, so the loop always continues to the next frame. -/
def handleMessages (mem : Option (List Nat)) : List Inbound → Option (List Nat)
  | [] => mem
  | .malformed _ :: rest => handleMessages mem rest
  | .parsed d :: rest => handleMessages (update_mumble_link mem d) rest

/-- Decode four little-endian bytes as a finite binary32 value (`None` for
infinities/NaNs or malformed input); used to state decoding scenarios. -/
def decodeF32 (bs : List Nat) : Option ℚ :=
  match bs with
  | [b0, b1, b2, b3] =>
    let bits := b0 + 256 * b1 + 65536 * b2 + 16777216 * b3
    let e := bits / 8388608 % 256
    if e = 255 then none
    else
      let mag : ℚ :=
        if e = 0 then qMulPow2 ((bits % 8388608 : Nat) : ℚ) (-149)
        else qMulPow2 ((8388608 + bits % 8388608 : Nat) : ℚ) ((e : ℤ) - 150)
      some (if bits / 2147483648 % 2 = 1 then -mag else mag)
  | _ => none

/-- Group UTF-16LE bytes into 16-bit units. -/
def utf16Units : List Nat → List Nat
  | b0 :: b1 :: rest => (b0 + 256 * b1) :: utf16Units rest
  | _ => []

/-- Combine UTF-16 units back into code points (surrogate pairs merged). -/
def unitsToCodes : List Nat → List Nat
  | [] => []
  | [u] => [u]
  | u :: v :: rest =>
    if 55296 ≤ u ∧ u < 56320 ∧ 56320 ≤ v ∧ v < 57344 then
      (65536 + (u - 55296) * 1024 + (v - 56320)) :: unitsToCodes rest
    else
      u :: unitsToCodes (v :: rest)

/-- The all-absent message (JSON object with none of the known keys). -/
def emptyMsg : Message :=
  ⟨none, none, none, none, none, none, none, none, none, none, none⟩

/-- The spec scenario message: only a name and an avatar position. -/
def aliceMsg : Message :=
  ⟨none, some [Val.num 1, Val.num 2, Val.num 3], none, none,
   some (strCodes "Alice"), none, none, none, none, none, none⟩

/-- A message whose avatar position has a single element. -/
def shortVecMsg : Message :=
  ⟨none, some [Val.num 1], none, none, none, none, none, none, none, none, none⟩

/-- A message whose avatar position starts with a non-numeric element. -/
def nonNumMsg : Message :=
  ⟨none, some [Val.nonNum, Val.num 0, Val.num 0], none, none, none, none, none,
   none, none, none, none⟩

/-- A message with a 400-character description (code point 97, letter a). -/
def longDescMsg : Message :=
  ⟨none, none, none, none, none, none, none, none, none, none,
   some (List.replicate 400 97)⟩

/-- An all-zero 2048-byte shared region. -/
def zeros2048 : List Nat := List.replicate 2048 0

/-- A 2048-byte shared region whose tick field (offset 4) holds 5. -/
def regionTick5 : List Nat := writeAt (List.replicate 2048 0) 4 [5, 0, 0, 0]

theorem bindOk {ε α β : Type} {x : Except ε α} {f : α → Except ε β} {b : β}
    (h : x >>= f = .ok b) : ∃ a, x = .ok a ∧ f a = .ok b := by
  cases x with
  | error e => simp [Bind.bind, Except.bind] at h
  | ok a => exact ⟨a, rfl, by simpa [Bind.bind, Except.bind] using h⟩

theorem packU32_ok_length {v : Nat} {b : List Nat} (h : packU32 v = .ok b) :
    b.length = 4 := by
  unfold packU32 at h
  split at h
  · injection h with h; subst h; rfl
  · exact Except.noConfusion h

theorem packF32val_ok_length {q : ℚ} {b : List Nat} (h : packF32val q = .ok b) :
    b.length = 4 := by
  unfold packF32val at h
  split at h
  · injection h with h; subst h; rfl
  · split at h
    · injection h with h; subst h; rfl
    · split at h
      · exact Except.noConfusion h
      · injection h with h; subst h; rfl

theorem packF32_ok_length {v : Val} {b : List Nat} (h : packF32 v = .ok b) :
    b.length = 4 := by
  cases v with
  | num q => exact packF32val_ok_length h
  | nonNum => exact Except.noConfusion h

theorem packF32at_ok_length {l : List Val} {i : Nat} {b : List Nat}
    (h : packF32at l i = .ok b) : b.length = 4 := by
  unfold packF32at at h
  split at h
  · exact Except.noConfusion h
  · exact packF32_ok_length h

theorem packVec3_ok_length {l : List Val} {b : List Nat} (h : packVec3 l = .ok b) :
    b.length = 12 := by
  unfold packVec3 at h
  obtain ⟨b0, h0, h⟩ := bindOk h
  obtain ⟨b1, h1, h⟩ := bindOk h
  obtain ⟨b2, h2, h⟩ := bindOk h
  injection h with h
  subst h
  have l0 := packF32at_ok_length h0
  have l1 := packF32at_ok_length h1
  have l2 := packF32at_ok_length h2
  simp [List.length_append]
  omega

theorem packVec3_ok_src {l : List Val} {b : List Nat} (h : packVec3 l = .ok b) :
    3 ≤ l.length := by
  unfold packVec3 at h
  obtain ⟨b0, h0, h⟩ := bindOk h
  obtain ⟨b1, h1, h⟩ := bindOk h
  obtain ⟨b2, h2, h⟩ := bindOk h
  cases hg : l.get? 2 with
  | none => rw [packF32at, hg] at h2; exact Except.noConfusion h2
  | some v =>
    have h3 := (List.get?_eq_some.mp hg).1
    omega

theorem pyBytes_ok_length {l : List Int} {b : List Nat} (h : pyBytes l = .ok b) :
    b.length = l.length := by
  induction l generalizing b with
  | nil =>
    unfold pyBytes at h
    injection h with h; subst h; rfl
  | cons c rest ih =>
    unfold pyBytes at h
    split at h
    · obtain ⟨r, hr, h⟩ := bindOk h
      injection h with h
      subst h
      simp [ih hr]
    · exact Except.noConfusion h

theorem writeAt_length (buf bs : List Nat) (off : Nat)
    (h : off + bs.length ≤ buf.length) :
    (writeAt buf off bs).length = buf.length := by
  simp [writeAt, List.length_append, List.length_take, List.length_drop]
  omega

theorem readAt_append_left {A B : List Nat} {off n : Nat} (h : off + n ≤ A.length) :
    readAt (A ++ B) off n = readAt A off n := by
  unfold readAt
  rw [List.drop_append_eq_append_drop, List.take_append_eq_append_take]
  have h2 : n - (A.drop off).length = 0 := by rw [List.length_drop]; omega
  rw [h2]
  simp

theorem readAt_take {buf : List Nat} {k off n : Nat} (h : off + n ≤ k) :
    readAt (buf.take k) off n = readAt buf off n := by
  unfold readAt
  rw [List.drop_take, List.take_take]
  congr 1
  omega

theorem readAt_writeAt_of_le (buf bs : List Nat) (off1 off2 n : Nat)
    (h1 : off2 + n ≤ off1) (h2 : off1 ≤ buf.length) :
    readAt (writeAt buf off1 bs) off2 n = readAt buf off2 n := by
  unfold writeAt
  rw [List.append_assoc]
  rw [readAt_append_left (by rw [List.length_take]; omega)]
  exact readAt_take (by omega)

theorem readAt_writeAt_self (buf bs : List Nat) (off : Nat) (h : off ≤ buf.length) :
    readAt (writeAt buf off bs) off bs.length = bs := by
  unfold readAt writeAt
  have hl : (buf.take off).length = off := by rw [List.length_take]; omega
  rw [List.append_assoc, List.drop_append_eq_append_drop, hl, Nat.sub_self,
    List.drop_eq_nil_of_le (le_of_eq hl), List.drop_zero, List.nil_append,
    List.take_left]

theorem readAt_writeAt_self_len (buf bs : List Nat) (off n : Nat)
    (h : off ≤ buf.length) (hn : bs.length = n) :
    readAt (writeAt buf off bs) off n = bs := by
  subst hn
  exact readAt_writeAt_self buf bs off h

theorem writeContext_ok_cases {buf : List Nat} {ctx : List Int} {b : List Nat}
    (h : writeContext buf ctx = .ok b) :
    b = buf ∨ ∃ cb : List Nat, cb.length ≤ 256 ∧ b = writeAt buf 1108 cb := by
  unfold writeContext at h
  split at h
  · injection h with h; exact Or.inl h.symm
  · obtain ⟨cb, hcb, h⟩ := bindOk h
    injection h with h
    refine Or.inr ⟨cb, ?_, h.symm⟩
    rw [pyBytes_ok_length hcb, List.length_take]
    exact min_le_left _ _

theorem writeContext_len {buf : List Nat} {ctx : List Int} {b : List Nat}
    (h : writeContext buf ctx = .ok b) (hlen : buf.length = 2048) :
    b.length = 2048 := by
  rcases writeContext_ok_cases h with rfl | ⟨cb, hcb, rfl⟩
  · exact hlen
  · rw [writeAt_length _ _ _ (by omega)]; exact hlen

theorem writeContext_readAt {buf : List Nat} {ctx : List Int} {b : List Nat}
    (h : writeContext buf ctx = .ok b) (hlen : buf.length = 2048)
    (off n : Nat) (hoff : off + n ≤ 1108) :
    readAt b off n = readAt buf off n := by
  rcases writeContext_ok_cases h with rfl | ⟨cb, hcb, rfl⟩
  · rfl
  · exact readAt_writeAt_of_le _ _ _ _ _ (by omega) (by omega)

theorem encodeRecord_ok {m : Message} {rec : List Nat}
    (h : encodeRecord m = .ok rec) :
    ∃ vb tb pb fb tpb cpb cfb ctb clb buf12 : List Nat,
      packU32 (m.uiVersion.getD 4) = .ok vb ∧
      packU32 (unpackU32 (readAt (writeAt (List.replicate 2048 0) 0 vb) 4 4) + 1) = .ok tb ∧
      packVec3 (avatarPos m) = .ok pb ∧
      packVec3 (avatarFront m) = .ok fb ∧
      packVec3 (avatarTop m) = .ok tpb ∧
      packVec3 (cameraPos m) = .ok cpb ∧
      packVec3 (cameraFront m) = .ok cfb ∧
      packVec3 (cameraTop m) = .ok ctb ∧
      packU32 (min (ctxOf m).length 256) = .ok clb ∧
      writeContext
        (assembleBase vb tb pb fb tpb (nameWideOf m) cpb cfb ctb (identityWideOf m) clb)
        (ctxOf m) = .ok buf12 ∧
      rec = writeAt buf12 1364 (descWideOf m) := by
  unfold encodeRecord at h
  obtain ⟨vb, h1, h⟩ := bindOk h
  obtain ⟨tb, h2, h⟩ := bindOk h
  obtain ⟨pb, h3, h⟩ := bindOk h
  obtain ⟨fb, h4, h⟩ := bindOk h
  obtain ⟨tpb, h5, h⟩ := bindOk h
  obtain ⟨cpb, h6, h⟩ := bindOk h
  obtain ⟨cfb, h7, h⟩ := bindOk h
  obtain ⟨ctb, h8, h⟩ := bindOk h
  obtain ⟨clb, h9, h⟩ := bindOk h
  obtain ⟨buf12, h10, h⟩ := bindOk h
  injection h with h
  exact ⟨vb, tb, pb, fb, tpb, cpb, cfb, ctb, clb, buf12,
    h1, h2, h3, h4, h5, h6, h7, h8, h9, h10, h.symm⟩

theorem assembleBase_spec {vb tb pb fb tpb nw cpb cfb ctb iw clb : List Nat}
    (hvb : vb.length = 4) (htb : tb.length = 4) (hpb : pb.length = 12)
    (hfb : fb.length = 12) (htpb : tpb.length = 12) (hnw : nw.length ≤ 510)
    (hcpb : cpb.length = 12) (hcfb : cfb.length = 12) (hctb : ctb.length = 12)
    (hiw : iw.length ≤ 510) (hclb : clb.length = 4) :
    (assembleBase vb tb pb fb tpb nw cpb cfb ctb iw clb).length = 2048 ∧
    readAt (assembleBase vb tb pb fb tpb nw cpb cfb ctb iw clb) 4 4 = tb ∧
    readAt (assembleBase vb tb pb fb tpb nw cpb cfb ctb iw clb) 8 12 = pb ∧
    readAt (assembleBase vb tb pb fb tpb nw cpb cfb ctb iw clb) 20 12 = fb ∧
    readAt (assembleBase vb tb pb fb tpb nw cpb cfb ctb iw clb) 32 12 = tpb ∧
    readAt (assembleBase vb tb pb fb tpb nw cpb cfb ctb iw clb) 556 12 = cpb ∧
    readAt (assembleBase vb tb pb fb tpb nw cpb cfb ctb iw clb) 568 12 = cfb ∧
    readAt (assembleBase vb tb pb fb tpb nw cpb cfb ctb iw clb) 580 12 = ctb := by
  unfold assembleBase
  set A0 : List Nat := List.replicate 2048 0 with hA0
  set A1 := writeAt A0 0 vb with hA1
  set A2 := writeAt A1 4 tb with hA2
  set A3 := writeAt A2 8 pb with hA3
  set A4 := writeAt A3 20 fb with hA4
  set A5 := writeAt A4 32 tpb with hA5
  set A6 := writeAt A5 44 nw with hA6
  set A7 := writeAt A6 556 cpb with hA7
  set A8 := writeAt A7 568 cfb with hA8
  set A9 := writeAt A8 580 ctb with hA9
  set A10 := writeAt A9 592 iw with hA10
  have l0 : A0.length = 2048 := by rw [hA0]; exact List.length_replicate ..
  have l1 : A1.length = 2048 := by
    rw [hA1, writeAt_length _ _ _ (by omega)]; exact l0
  have l2 : A2.length = 2048 := by
    rw [hA2, writeAt_length _ _ _ (by omega)]; exact l1
  have l3 : A3.length = 2048 := by
    rw [hA3, writeAt_length _ _ _ (by omega)]; exact l2
  have l4 : A4.length = 2048 := by
    rw [hA4, writeAt_length _ _ _ (by omega)]; exact l3
  have l5 : A5.length = 2048 := by
    rw [hA5, writeAt_length _ _ _ (by omega)]; exact l4
  have l6 : A6.length = 2048 := by
    rw [hA6, writeAt_length _ _ _ (by omega)]; exact l5
  have l7 : A7.length = 2048 := by
    rw [hA7, writeAt_length _ _ _ (by omega)]; exact l6
  have l8 : A8.length = 2048 := by
    rw [hA8, writeAt_length _ _ _ (by omega)]; exact l7
  have l9 : A9.length = 2048 := by
    rw [hA9, writeAt_length _ _ _ (by omega)]; exact l8
  have l10 : A10.length = 2048 := by
    rw [hA10, writeAt_length _ _ _ (by omega)]; exact l9
  refine ⟨?_, ?_, ?_, ?_, ?_, ?_, ?_, ?_⟩
  · rw [writeAt_length _ _ _ (by omega)]; exact l10
  · rw [readAt_writeAt_of_le A10 clb 1104 4 4 (by omega) (by omega), hA10,
      readAt_writeAt_of_le A9 iw 592 4 4 (by omega) (by omega), hA9,
      readAt_writeAt_of_le A8 ctb 580 4 4 (by omega) (by omega), hA8,
      readAt_writeAt_of_le A7 cfb 568 4 4 (by omega) (by omega), hA7,
      readAt_writeAt_of_le A6 cpb 556 4 4 (by omega) (by omega), hA6,
      readAt_writeAt_of_le A5 nw 44 4 4 (by omega) (by omega), hA5,
      readAt_writeAt_of_le A4 tpb 32 4 4 (by omega) (by omega), hA4,
      readAt_writeAt_of_le A3 fb 20 4 4 (by omega) (by omega), hA3,
      readAt_writeAt_of_le A2 pb 8 4 4 (by omega) (by omega), hA2,
      readAt_writeAt_self_len A1 tb 4 4 (by omega) htb]
  · rw [readAt_writeAt_of_le A10 clb 1104 8 12 (by omega) (by omega), hA10,
      readAt_writeAt_of_le A9 iw 592 8 12 (by omega) (by omega), hA9,
      readAt_writeAt_of_le A8 ctb 580 8 12 (by omega) (by omega), hA8,
      readAt_writeAt_of_le A7 cfb 568 8 12 (by omega) (by omega), hA7,
      readAt_writeAt_of_le A6 cpb 556 8 12 (by omega) (by omega), hA6,
      readAt_writeAt_of_le A5 nw 44 8 12 (by omega) (by omega), hA5,
      readAt_writeAt_of_le A4 tpb 32 8 12 (by omega) (by omega), hA4,
      readAt_writeAt_of_le A3 fb 20 8 12 (by omega) (by omega), hA3,
      ← hpb, readAt_writeAt_self A2 pb 8 (by omega)]
  · rw [readAt_writeAt_of_le A10 clb 1104 20 12 (by omega) (by omega), hA10,
      readAt_writeAt_of_le A9 iw 592 20 12 (by omega) (by omega), hA9,
      readAt_writeAt_of_le A8 ctb 580 20 12 (by omega) (by omega), hA8,
      readAt_writeAt_of_le A7 cfb 568 20 12 (by omega) (by omega), hA7,
      readAt_writeAt_of_le A6 cpb 556 20 12 (by omega) (by omega), hA6,
      readAt_writeAt_of_le A5 nw 44 20 12 (by omega) (by omega), hA5,
      readAt_writeAt_of_le A4 tpb 32 20 12 (by omega) (by omega), hA4,
      ← hfb, readAt_writeAt_self A3 fb 20 (by omega)]
  · rw [readAt_writeAt_of_le A10 clb 1104 32 12 (by omega) (by omega), hA10,
      readAt_writeAt_of_le A9 iw 592 32 12 (by omega) (by omega), hA9,
      readAt_writeAt_of_le A8 ctb 580 32 12 (by omega) (by omega), hA8,
      readAt_writeAt_of_le A7 cfb 568 32 12 (by omega) (by omega), hA7,
      readAt_writeAt_of_le A6 cpb 556 32 12 (by omega) (by omega), hA6,
      readAt_writeAt_of_le A5 nw 44 32 12 (by omega) (by omega), hA5,
      ← htpb, readAt_writeAt_self A4 tpb 32 (by omega)]
  · rw [readAt_writeAt_of_le A10 clb 1104 556 12 (by omega) (by omega), hA10,
      readAt_writeAt_of_le A9 iw 592 556 12 (by omega) (by omega), hA9,
      readAt_writeAt_of_le A8 ctb 580 556 12 (by omega) (by omega), hA8,
      readAt_writeAt_of_le A7 cfb 568 556 12 (by omega) (by omega), hA7,
      ← hcpb, readAt_writeAt_self A6 cpb 556 (by omega)]
  · rw [readAt_writeAt_of_le A10 clb 1104 568 12 (by omega) (by omega), hA10,
      readAt_writeAt_of_le A9 iw 592 568 12 (by omega) (by omega), hA9,
      readAt_writeAt_of_le A8 ctb 580 568 12 (by omega) (by omega), hA8,
      ← hcfb, readAt_writeAt_self A7 cfb 568 (by omega)]
  · rw [readAt_writeAt_of_le A10 clb 1104 580 12 (by omega) (by omega), hA10,
      readAt_writeAt_of_le A9 iw 592 580 12 (by omega) (by omega), hA9,
      ← hctb, readAt_writeAt_self A8 ctb 580 (by omega)]

theorem readAt_writeAt_of_ge (buf bs : List Nat) (off1 off2 n : Nat)
    (h1 : off1 + bs.length ≤ off2) (h2 : off1 ≤ buf.length) :
    readAt (writeAt buf off1 bs) off2 n = readAt buf off2 n := by
  unfold readAt writeAt
  rw [List.append_assoc, List.drop_append_eq_append_drop,
    List.drop_eq_nil_of_le (by rw [List.length_take]; omega), List.nil_append,
    List.drop_append_eq_append_drop,
    List.drop_eq_nil_of_le (by rw [List.length_take]; omega), List.nil_append,
    List.drop_drop, List.length_take]
  congr 2
  omega

theorem writeAt_length_grow (buf bs : List Nat) (off : Nat)
    (h1 : off ≤ buf.length) (h2 : buf.length ≤ off + bs.length) :
    (writeAt buf off bs).length = off + bs.length := by
  simp [writeAt, List.length_append, List.length_take, List.length_drop]
  omega

theorem tick_read_zero {vb : List Nat} (hvb : vb.length = 4) :
    readAt (writeAt (List.replicate 2048 0) 0 vb) 4 4 = [0, 0, 0, 0] := by
  rw [readAt_writeAt_of_ge _ _ 0 4 4 (by omega) (Nat.zero_le _)]
  decide

theorem encodeRecord_tick {m : Message} {rec : List Nat}
    (h : encodeRecord m = .ok rec) : readAt rec 4 4 = bytesOfBits 1 := by
  obtain ⟨vb, tb, pb, fb, tpb, cpb, cfb, ctb, clb, buf12,
    h1, h2, h3, h4, h5, h6, h7, h8, h9, h10, hrec⟩ := encodeRecord_ok h
  have hvb := packU32_ok_length h1
  rw [tick_read_zero hvb] at h2
  have hconc : packU32 (unpackU32 [0, 0, 0, 0] + 1) = .ok (bytesOfBits 1) := rfl
  have htb_eq : tb = bytesOfBits 1 := (Except.ok.inj (hconc.symm.trans h2)).symm
  have htb := packU32_ok_length h2
  have hpb := packVec3_ok_length h3
  have hfb := packVec3_ok_length h4
  have htpb := packVec3_ok_length h5
  have hcpb := packVec3_ok_length h6
  have hcfb := packVec3_ok_length h7
  have hctb := packVec3_ok_length h8
  have hclb := packU32_ok_length h9
  have hnw : (nameWideOf m).length ≤ 510 := by
    rw [nameWideOf, List.length_take]; exact min_le_left _ _
  have hiw : (identityWideOf m).length ≤ 510 := by
    rw [identityWideOf, List.length_take]; exact min_le_left _ _
  obtain ⟨hAlen, rtick, r8, r20, r32, r556, r568, r580⟩ :=
    assembleBase_spec hvb htb hpb hfb htpb hnw hcpb hcfb hctb hiw hclb
  have h12len := writeContext_len h10 hAlen
  subst hrec
  rw [readAt_writeAt_of_le buf12 (descWideOf m) 1364 4 4 (by omega) (by omega),
    writeContext_readAt h10 hAlen 4 4 (by omega), rtick, htb_eq]

theorem encodeRecord_ok_length {m : Message} {rec : List Nat}
    (h : encodeRecord m = .ok rec) (hd : (descWideOf m).length ≤ 684) :
    rec.length = 2048 := by
  obtain ⟨vb, tb, pb, fb, tpb, cpb, cfb, ctb, clb, buf12,
    h1, h2, h3, h4, h5, h6, h7, h8, h9, h10, hrec⟩ := encodeRecord_ok h
  have hvb := packU32_ok_length h1
  have htb := packU32_ok_length h2
  have hpb := packVec3_ok_length h3
  have hfb := packVec3_ok_length h4
  have htpb := packVec3_ok_length h5
  have hcpb := packVec3_ok_length h6
  have hcfb := packVec3_ok_length h7
  have hctb := packVec3_ok_length h8
  have hclb := packU32_ok_length h9
  have hnw : (nameWideOf m).length ≤ 510 := by
    rw [nameWideOf, List.length_take]; exact min_le_left _ _
  have hiw : (identityWideOf m).length ≤ 510 := by
    rw [identityWideOf, List.length_take]; exact min_le_left _ _
  obtain ⟨hAlen, rtick, r8, r20, r32, r556, r568, r580⟩ :=
    assembleBase_spec hvb htb hpb hfb htpb hnw hcpb hcfb hctb hiw hclb
  have h12len := writeContext_len h10 hAlen
  subst hrec
  rw [writeAt_length _ _ _ (by omega)]
  exact h12len

theorem encodeRecord_ok_length_grow {m : Message} {rec : List Nat}
    (h : encodeRecord m = .ok rec) (hd : 684 ≤ (descWideOf m).length) :
    rec.length = 1364 + (descWideOf m).length := by
  obtain ⟨vb, tb, pb, fb, tpb, cpb, cfb, ctb, clb, buf12,
    h1, h2, h3, h4, h5, h6, h7, h8, h9, h10, hrec⟩ := encodeRecord_ok h
  have hvb := packU32_ok_length h1
  have htb := packU32_ok_length h2
  have hpb := packVec3_ok_length h3
  have hfb := packVec3_ok_length h4
  have htpb := packVec3_ok_length h5
  have hcpb := packVec3_ok_length h6
  have hcfb := packVec3_ok_length h7
  have hctb := packVec3_ok_length h8
  have hclb := packU32_ok_length h9
  have hnw : (nameWideOf m).length ≤ 510 := by
    rw [nameWideOf, List.length_take]; exact min_le_left _ _
  have hiw : (identityWideOf m).length ≤ 510 := by
    rw [identityWideOf, List.length_take]; exact min_le_left _ _
  obtain ⟨hAlen, rtick, r8, r20, r32, r556, r568, r580⟩ :=
    assembleBase_spec hvb htb hpb hfb htpb hnw hcpb hcfb hctb hiw hclb
  have h12len := writeContext_len h10 hAlen
  subst hrec
  rw [writeAt_length_grow _ _ _ (by omega) (by omega)]

/-- C1: the claim says the tick at offset 4 of a newly encoded record is the
previous record's tick plus one (mod 2^32), so N updates add N.  The code
instead reads the tick out of the freshly zeroed local bytearray (line 119),
so every update writes tick = 1: updating a region whose tick is 5 yields
tick 1, not (5 + 1) mod 2^32. -/
theorem C1_tick_always_one :
    tickOf (some regionTick5) = 5 ∧
    tickOf (update_mumble_link (some regionTick5) emptyMsg) = 1 ∧
    tickOf (update_mumble_link (some regionTick5) emptyMsg) ≠ (5 + 1) % 4294967296 := by
  have henc : encodeRecord emptyMsg = .ok (getRec emptyMsg) := by with_unfolding_all rfl
  have hd : (descWideOf emptyMsg).length = 22 := by with_unfolding_all rfl
  have hlen : (getRec emptyMsg).length = 2048 := encodeRecord_ok_length henc (by omega)
  have htick := encodeRecord_tick henc
  have hreg : regionTick5.length = 2048 := by
    unfold regionTick5
    rw [writeAt_length _ _ _ (by simp)]
    simp
  have hm : mmapWrite regionTick5 (getRec emptyMsg) =
      .ok (getRec emptyMsg ++ regionTick5.drop (getRec emptyMsg).length) := by
    unfold mmapWrite
    rw [if_pos (by omega)]
  have key : tickOf (update_mumble_link (some regionTick5) emptyMsg) = 1 := by
    simp only [update_mumble_link, henc, hm, tickOf]
    rw [readAt_append_left (by omega), htick]
    decide
  exact ⟨rfl, key, by rw [key]; decide⟩

/-- C2: the claim says the encoded record is always exactly 2048 bytes.  A
400-character description encodes to 800 bytes; the slice assignment at
offset 1364 grows the 2048-byte bytearray to 2164 bytes, and the subsequent
`mmap.write` of the oversized buffer raises `ValueError` (caught and logged),
leaving the region unchanged. -/
theorem C2_record_not_2048 :
    (getRec longDescMsg).length = 2164 ∧
    update_mumble_link (some zeros2048) longDescMsg = some zeros2048 := by
  have henc : encodeRecord longDescMsg = .ok (getRec longDescMsg) := by
    with_unfolding_all rfl
  have hd : (descWideOf longDescMsg).length = 800 := by with_unfolding_all rfl
  have hlen : (getRec longDescMsg).length = 2164 := by
    rw [encodeRecord_ok_length_grow henc (by omega), hd]
  have hz : zeros2048.length = 2048 := by unfold zeros2048; simp
  have hm : mmapWrite zeros2048 (getRec longDescMsg) = .error .valueError := by
    unfold mmapWrite
    rw [if_neg (by omega)]
  refine ⟨hlen, ?_⟩
  simp only [update_mumble_link, henc, hm]

/-- C3: the claim says deriving the link name never raises and returns
`/dev/shm/MumbleLink.<uid>` on Linux, `/tmp/MumbleLink.<uid>` on Darwin.
The module never imports `os`, so `os.getuid()` raises `NameError` on the
Linux and Darwin branches; only the Windows branch returns. -/
theorem C3_link_name_name_error :
    get_link_name "Linux" 1000 = .error .nameError ∧
    get_link_name "Darwin" 501 = .error .nameError ∧
    get_link_name "Windows" 0 = .ok (some "MumbleLink") :=
  ⟨rfl, rfl, rfl⟩

/-- C4 counterexample: on an unsupported platform the process exits with
code 0, not a non-zero code as the claim states — `start_server` merely logs
and returns, so `asyncio.run` completes and `main` falls through. -/
theorem C4_counterexample : (runStartup "FreeBSD" 0 true).exitCode = 0 := rfl

/-- C4 amended: on an unsupported platform identifier the process logs the
condition and terminates without binding the listener, but its exit code is
0 (zero), not non-zero. -/
theorem C4_amended_thm :
    ∀ (system : String) (uid : Nat) (resourceExists : Bool),
      system ≠ "Windows" → system ≠ "Linux" → system ≠ "Darwin" →
      runStartup system uid resourceExists = ⟨true, false, false, true, 0⟩ := by
  intro s uid r h1 h2 h3
  simp [runStartup, get_link_name, init_mumble_link, h1, h2, h3]

/-- C4 witness: the amended statement at the concrete platform "Haiku". -/
theorem C4_witness : runStartup "Haiku" 1 false = ⟨true, false, false, true, 0⟩ :=
  C4_amended_thm "Haiku" 1 false (by decide) (by decide) (by decide)

/-- C5 counterexample: with the shared-memory resource missing at startup the
process terminates (after a warning) instead of keeping running in no-op
mode as the claim states. -/
theorem C5_counterexample :
    (runStartup "Windows" 0 false).terminated = true ∧
    (runStartup "Windows" 0 false).listenerBound = false :=
  ⟨rfl, rfl⟩

/-- C5 amended: when the resource does not exist at startup the condition is
logged as a warning, but the process then exits with code 0 without starting
the listener, rather than continuing in no-op mode.  (The update routine's
no-op guard for an unopened region exists but is not reached at startup.) -/
theorem C5_amended_thm :
    ∀ uid : Nat,
      runStartup "Windows" uid false = ⟨false, true, false, true, 0⟩ ∧
      ∀ d : Message, update_mumble_link none d = none := by
  intro uid
  exact ⟨rfl, fun d => rfl⟩

/-- C6 counterexample: a message whose avatar-position array has one element
is not zero-filled; `pos[1]` raises `IndexError`, so encoding fails. -/
theorem C6_counterexample :
    encodeRecord shortVecMsg = .error .indexError := by
  with_unfolding_all rfl

/-- C6 amended: a supplied avatar or camera vector with fewer than 3 elements
makes the encode raise (the update is dropped); equivalently, encoding only
succeeds when every supplied vector has at least 3 elements — missing
elements are never zero-filled. -/
theorem C6_amended_thm :
    ∀ (m : Message) (rec : List Nat), encodeRecord m = .ok rec →
      ∀ l : List Val,
        (m.fAvatarPosition = some l ∨ m.fAvatarFront = some l ∨
         m.fAvatarTop = some l ∨ m.fCameraPosition = some l ∨
         m.fCameraFront = some l ∨ m.fCameraTop = some l) →
        3 ≤ l.length := by
  intro m rec h l hl
  obtain ⟨vb, tb, pb, fb, tpb, cpb, cfb, ctb, clb, buf12,
    h1, h2, h3, h4, h5, h6, h7, h8, h9, h10, hrec⟩ := encodeRecord_ok h
  rcases hl with hl | hl | hl | hl | hl | hl
  · have e : avatarPos m = l := by rw [avatarPos, hl]; rfl
    rw [e] at h3; exact packVec3_ok_src h3
  · have e : avatarFront m = l := by rw [avatarFront, hl]; rfl
    rw [e] at h4; exact packVec3_ok_src h4
  · have e : avatarTop m = l := by rw [avatarTop, hl]; rfl
    rw [e] at h5; exact packVec3_ok_src h5
  · have e : cameraPos m = l := by rw [cameraPos, hl]; rfl
    rw [e] at h6; exact packVec3_ok_src h6
  · have e : cameraFront m = l := by rw [cameraFront, hl]; rfl
    rw [e] at h7; exact packVec3_ok_src h7
  · have e : cameraTop m = l := by rw [cameraTop, hl]; rfl
    rw [e] at h8; exact packVec3_ok_src h8

/-- C6 witness: the amended statement applied at a message whose avatar
position has exactly three numeric elements (encoding succeeds there). -/
theorem C6_witness : 3 ≤ ([Val.num 1, Val.num 2, Val.num 3] : List Val).length :=
  C6_amended_thm aliceMsg (getRec aliceMsg) (by with_unfolding_all rfl)
    [Val.num 1, Val.num 2, Val.num 3] (Or.inl rfl)

/-- C7: for every message the encoded name and identity texts are at most 510
bytes and the description text at most 4094 bytes (truncation, never
rejection), and the name region [44, 44+len) and identity region
[592, 592+len) stay inside their 512-byte fields, never reaching the next
field at offsets 556 and 1104. -/
theorem C7_text_truncation :
    ∀ m : Message,
      (nameWideOf m).length ≤ 510 ∧ (identityWideOf m).length ≤ 510 ∧
      (descWideOf m).length ≤ 4094 ∧
      44 + (nameWideOf m).length ≤ 556 ∧ 592 + (identityWideOf m).length ≤ 1104 := by
  intro m
  have h1 : (nameWideOf m).length ≤ 510 := by
    rw [nameWideOf, List.length_take]; exact min_le_left _ _
  have h2 : (identityWideOf m).length ≤ 510 := by
    rw [identityWideOf, List.length_take]; exact min_le_left _ _
  have h3 : (descWideOf m).length ≤ 4094 := by
    rw [descWideOf, List.length_take]; exact min_le_left _ _
  exact ⟨h1, h2, h3, by omega, by omega⟩

/-- C8: a message omitting all camera fields has its encoded camera vectors
(offsets 556/568/580) byte-for-byte equal to the encoded avatar vectors
(offsets 8/20/32); and in the Alice scenario the avatar-position and
camera-position floats both decode to (1, 2, 3) while the name field
(UTF-16LE, padding trimmed) decodes to "Alice". -/
theorem C8_camera_defaults :
    (∀ (m : Message) (rec : List Nat), encodeRecord m = .ok rec →
      m.fCameraPosition = none → m.fCameraFront = none → m.fCameraTop = none →
      readAt rec 556 12 = readAt rec 8 12 ∧ readAt rec 568 12 = readAt rec 20 12 ∧
        readAt rec 580 12 = readAt rec 32 12) ∧
    decodeF32 (readAt (getRec aliceMsg) 8 4) = some 1 ∧
    decodeF32 (readAt (getRec aliceMsg) 12 4) = some 2 ∧
    decodeF32 (readAt (getRec aliceMsg) 16 4) = some 3 ∧
    decodeF32 (readAt (getRec aliceMsg) 556 4) = some 1 ∧
    decodeF32 (readAt (getRec aliceMsg) 560 4) = some 2 ∧
    decodeF32 (readAt (getRec aliceMsg) 564 4) = some 3 ∧
    (unitsToCodes (utf16Units (readAt (getRec aliceMsg) 44 512))).takeWhile
      (fun c => c != 0) = strCodes "Alice" := by
  refine ⟨?_, by with_unfolding_all decide, by with_unfolding_all decide,
    by with_unfolding_all decide, by with_unfolding_all decide,
    by with_unfolding_all decide, by with_unfolding_all decide,
    by with_unfolding_all decide⟩
  intro m rec h hcp hcf hct
  obtain ⟨vb, tb, pb, fb, tpb, cpb, cfb, ctb, clb, buf12,
    h1, h2, h3, h4, h5, h6, h7, h8, h9, h10, hrec⟩ := encodeRecord_ok h
  have hvb := packU32_ok_length h1
  have htb := packU32_ok_length h2
  have hpb := packVec3_ok_length h3
  have hfb := packVec3_ok_length h4
  have htpb := packVec3_ok_length h5
  have hcpb := packVec3_ok_length h6
  have hcfb := packVec3_ok_length h7
  have hctb := packVec3_ok_length h8
  have hclb := packU32_ok_length h9
  have hnw : (nameWideOf m).length ≤ 510 := by
    rw [nameWideOf, List.length_take]; exact min_le_left _ _
  have hiw : (identityWideOf m).length ≤ 510 := by
    rw [identityWideOf, List.length_take]; exact min_le_left _ _
  obtain ⟨hAlen, rtick, r8, r20, r32, r556, r568, r580⟩ :=
    assembleBase_spec hvb htb hpb hfb htpb hnw hcpb hcfb hctb hiw hclb
  have h12len := writeContext_len h10 hAlen
  have ecp : pb = cpb := by
    have e : cameraPos m = avatarPos m := by rw [cameraPos, hcp]; rfl
    rw [e] at h6
    exact Except.ok.inj (h3.symm.trans h6)
  have ecf : fb = cfb := by
    have e : cameraFront m = avatarFront m := by rw [cameraFront, hcf]; rfl
    rw [e] at h7
    exact Except.ok.inj (h4.symm.trans h7)
  have ect : tpb = ctb := by
    have e : cameraTop m = avatarTop m := by rw [cameraTop, hct]; rfl
    rw [e] at h8
    exact Except.ok.inj (h5.symm.trans h8)
  subst hrec
  refine ⟨?_, ?_, ?_⟩
  · rw [readAt_writeAt_of_le buf12 (descWideOf m) 1364 556 12 (by omega) (by omega),
      readAt_writeAt_of_le buf12 (descWideOf m) 1364 8 12 (by omega) (by omega),
      writeContext_readAt h10 hAlen 556 12 (by omega),
      writeContext_readAt h10 hAlen 8 12 (by omega), r556, r8]
    exact ecp.symm
  · rw [readAt_writeAt_of_le buf12 (descWideOf m) 1364 568 12 (by omega) (by omega),
      readAt_writeAt_of_le buf12 (descWideOf m) 1364 20 12 (by omega) (by omega),
      writeContext_readAt h10 hAlen 568 12 (by omega),
      writeContext_readAt h10 hAlen 20 12 (by omega), r568, r20]
    exact ecf.symm
  · rw [readAt_writeAt_of_le buf12 (descWideOf m) 1364 580 12 (by omega) (by omega),
      readAt_writeAt_of_le buf12 (descWideOf m) 1364 32 12 (by omega) (by omega),
      writeContext_readAt h10 hAlen 580 12 (by omega),
      writeContext_readAt h10 hAlen 32 12 (by omega), r580, r32]
    exact ect.symm

/-- C8 witness: the camera-defaulting equalities at the Alice message, whose
camera fields are all absent. -/
theorem C8_witness :
    readAt (getRec aliceMsg) 556 12 = readAt (getRec aliceMsg) 8 12 ∧
    readAt (getRec aliceMsg) 568 12 = readAt (getRec aliceMsg) 20 12 ∧
    readAt (getRec aliceMsg) 580 12 = readAt (getRec aliceMsg) 32 12 :=
  C8_camera_defaults.1 aliceMsg (getRec aliceMsg) (by with_unfolding_all rfl) rfl rfl rfl

/-- C9: a structurally invalid payload is skipped without touching the region
and the connection keeps processing: the very next well-formed message goes
through `update_mumble_link`, and any remaining messages are handled. -/
theorem C9_malformed_skipped :
    (∀ (mem : Option (List Nat)) (s : String) (rest : List Inbound),
        handleMessages mem (Inbound.malformed s :: rest) = handleMessages mem rest) ∧
    (∀ (mem : Option (List Nat)) (s : String) (d : Message) (rest : List Inbound),
        handleMessages mem (Inbound.malformed s :: Inbound.parsed d :: rest) =
          handleMessages (update_mumble_link mem d) rest) :=
  ⟨fun _ _ _ => rfl, fun _ _ _ _ => rfl⟩

/-- C10: the record is assembled in a local buffer and written only at the
end; when encoding any field raises, the shared region is unchanged, and
`update_mumble_link` is a total function (every exception is caught), so
nothing propagates to the caller. -/
theorem C10_local_buffer :
    ∀ (mem : Option (List Nat)) (m : Message) (e : PyErr),
      encodeRecord m = .error e → update_mumble_link mem m = mem := by
  intro mem m e h
  cases mem with
  | none => rfl
  | some region => simp [update_mumble_link, h]

/-- C10 witness: a non-numeric avatar-position element makes encoding raise
`struct.error`; the update leaves the region bytes untouched. -/
theorem C10_witness :
    update_mumble_link (some zeros2048) nonNumMsg = some zeros2048 :=
  C10_local_buffer (some zeros2048) nonNumMsg PyErr.structError (by with_unfolding_all rfl)
